import Mathlib

/-!
Verification of the Peloton TRMNL plugin core (`src/main.py`): the weekly
streak calculator `calculate_weekly_streak`, the bounded paginated fetcher
`fetch_workouts_for_streak`, and the streak-bar renderer
`generate_streak_bar`, shallowly embedded in Lean.

Dates are modelled as day numbers since the Unix epoch (1970-01-01, an
`Int`); `datetime.utcfromtimestamp(ts).date()` floor-divides the timestamp
by 86400, and `date.isocalendar()` is embedded via the standard
days-from-civil / civil-from-days arithmetic.
-/

/-- `datetime.utcfromtimestamp(ts).date()`: the calendar day (as a day
number since 1970-01-01) containing the epoch timestamp `ts`. -/
def tsToDate (ts : Int) : Int := Int.fdiv ts 86400

/-- Day number (since 1970-01-01) of January 1st of the Gregorian year `y`. -/
def jan1 (y : Int) : Int :=
  let yp := y - 1
  let era := Int.fdiv yp 400
  let yoe := yp - era * 400
  era * 146097 + yoe * 365 + Int.fdiv yoe 4 - Int.fdiv yoe 100 + 306 - 719468

/-- Gregorian calendar year containing the day number `z`. -/
def yearOfDay (z : Int) : Int :=
  let z2 := z + 719468
  let era := Int.fdiv z2 146097
  let doe := z2 - era * 146097
  let yoe := Int.fdiv (doe - Int.fdiv doe 1460 + Int.fdiv doe 36524 - Int.fdiv doe 146096) 365
  let y := yoe + era * 400
  let doy := doe - (365 * yoe + Int.fdiv yoe 4 - Int.fdiv yoe 100)
  let mp := Int.fdiv (5 * doy + 2) 153
  let m := mp + (if mp < 10 then (3 : Int) else -9)
  if m ≤ 2 then y + 1 else y

/-- `date.isocalendar()` restricted to its first two components: the ISO 8601
(year, week number) pair of the day number `d`.  Weeks start on Monday, and a
day belongs to the ISO year of the Thursday of its week. -/
def isoWeekPair (d : Int) : Int × Int :=
  let wd := Int.emod (d + 3) 7
  let th := d - wd + 3
  let y := yearOfDay th
  (y, Int.fdiv (th - jan1 y) 7 + 1)

-- Sanity anchors for the calendar embedding, cross-checked against CPython's
-- `datetime.utcfromtimestamp(ts).date().isocalendar()`.
example : jan1 1970 = 0 := by decide
example : isoWeekPair 0 = (1970, 1) := by decide
example : isoWeekPair 364 = (1970, 53) := by decide
example : isoWeekPair 11574 = (2001, 36) := by decide
example : isoWeekPair 14288 = (2009, 7) := by decide
example : isoWeekPair 18518 = (2020, 37) := by decide
example : isoWeekPair 18627 = (2020, 53) := by decide
example : isoWeekPair 18628 = (2020, 53) := by decide
example : isoWeekPair 18631 = (2021, 1) := by decide
example : isoWeekPair 16797 = (2015, 53) := by decide
example : isoWeekPair 16804 = (2016, 1) := by decide
example : isoWeekPair 20738 = (2026, 42) := by decide
example : isoWeekPair 20087 = (2025, 1) := by decide
example : isoWeekPair 10592 = (1998, 53) := by decide
example : isoWeekPair 11016 = (2000, 9) := by decide
example : isoWeekPair (-1) = (1970, 1) := by decide
example : isoWeekPair (-3487) = (1960, 24) := by decide
example : tsToDate 1234567890 = 14288 := by decide
example : tsToDate 86399 = 0 := by decide
example : tsToDate (-1) = -1 := by decide

/-- A Python value that may sit in a workout record's `start_time` field:
either an integer timestamp, or some non-integer value (modelled by a string)
on which `datetime.utcfromtimestamp` raises. -/
inductive PyVal where
  | vint (n : Int)
  | vstr (s : String)
deriving DecidableEq

/-- A workout record: a dict whose `start_time` key may be absent (`none`)
or hold a value.  All other fields are ignored by the core. -/
structure Workout where
  start_time : Option PyVal
deriving DecidableEq

/-- The ISO (year, week) pair of a workout record, when its `start_time` is
an integer (`isinstance(ts, int)`); `none` otherwise. -/
def woWeek (w : Workout) : Option (Int × Int) :=
  match w.start_time with
  | some (PyVal.vint n) => some (isoWeekPair (tsToDate n))
  | _ => none

/-- The `weeks_with_workouts` set of `calculate_weekly_streak` (main.py
lines 63-70): the ISO (year, week) pairs of all records with an integer
`start_time`. -/
def activeWeeks (workouts : List Workout) : Finset (Int × Int) :=
  workouts.foldr
    (fun w s => match woWeek w with
      | some p => insert p s
      | none => s) ∅

/-- One backward step of the walk in `calculate_weekly_streak` (main.py
lines 83-87): week 1 wraps to week 52 of the prior year, otherwise the week
number is decremented. -/
def stepWeek (p : Int × Int) : Int × Int :=
  if p.2 = 1 then (p.1 - 1, 52) else (p.1, p.2 - 1)

/-- The `while (y, w) in weeks_with_workouts` loop of
`calculate_weekly_streak` (main.py lines 78-89), with explicit fuel; the
week-1 wraparound branch of the loop body is `stepWeek`.  The loop
terminates because the visited pairs strictly decrease lexicographically, so
`S.card + 1` fuel is always sufficient (`walkAux_spec`). -/
def walkAux : Nat → Finset (Int × Int) → Int × Int → Nat
  | 0, _, _ => 0
  | fuel + 1, S, p => if p ∈ S then 1 + walkAux fuel S (stepWeek p) else 0

/-- `calculate_weekly_streak` (main.py lines 62-89).  `today` is the value
the source reads internally via `datetime.utcnow().date()`, hoisted to an
explicit parameter of the embedding. -/
def calculate_weekly_streak (workouts : List Workout) (today : Int) : Nat :=
  if activeWeeks workouts = ∅ then 0
  else walkAux ((activeWeeks workouts).card + 1) (activeWeeks workouts) (isoWeekPair today)

/-- The result of fetching one page of the remote workout listing: either a
non-200 HTTP status, or a 200 response whose `data` field holds a (possibly
empty) list of records. -/
inductive PageResult where
  | err
  | ok (data : List Workout)
deriving DecidableEq

/-- How `fetch_workouts_for_streak` can fail: the `HTTPException` raised on a
non-200 page response (main.py line 106, carrying the failing page index), or
the `TypeError` that `datetime.utcfromtimestamp` raises inside the
date-comprehension (line 115) when a record's present `start_time` is not a
number. -/
inductive FetchErr where
  | httpError (page : Nat)
  | typeError
deriving DecidableEq

/-- The set comprehension of main.py lines 114-117 before sorting: the
calendar dates of all records that have a `start_time` key, raising
(`Except.error`) if any present `start_time` is a non-numeric value.  Records
without the key are skipped. -/
def collectDates : List Workout → Except Unit (List Int)
  | [] => Except.ok []
  | w :: ws =>
    match w.start_time with
    | none => collectDates ws
    | some (PyVal.vint n) => (collectDates ws).map (fun ds => tsToDate n :: ds)
    | some (PyVal.vstr _) => Except.error ()

/-- Insert a date into a strictly-descending sorted list, dropping
duplicates. -/
def insertDesc (d : Int) : List Int → List Int
  | [] => [d]
  | x :: xs => if x < d then d :: x :: xs else if d = x then x :: xs else x :: insertDesc d xs

/-- `sorted({...}, reverse=True)` of main.py line 114: the distinct dates in
strictly descending order. -/
def sortDesc (ds : List Int) : List Int := ds.foldr insertDesc []

/-- The early-exit scan of main.py lines 120-122: walking the sorted distinct
dates with index `i`, report a gap as soon as some date differs from
`today - timedelta(days=i)`. -/
def hasGap (today : Int) : Nat → List Int → Bool
  | _, [] => false
  | i, d :: ds => if d ≠ today - (i : Int) then true else hasGap today (i + 1) ds

/-- The `while True` pagination loop of `fetch_workouts_for_streak` (main.py
lines 100-126).  `rest` is the sequence of page responses the server will
return from the current page index `page` on; an exhausted list behaves like
a 200 response with empty `data` (end of history).  `acc` is the `workouts`
accumulator. -/
def fetchLoop (today : Int) : List PageResult → List Workout → Nat → Except FetchErr (List Workout)
  | [], acc, _ => Except.ok acc
  | PageResult.err :: _, _, page => Except.error (FetchErr.httpError page)
  | PageResult.ok data :: rest, acc, page =>
    if data = [] then Except.ok acc
    else
      match collectDates (acc ++ data) with
      | Except.error _ => Except.error FetchErr.typeError
      | Except.ok ds =>
        if hasGap today 0 (sortDesc ds) then Except.ok (acc ++ data)
        else fetchLoop today rest (acc ++ data) (page + 1)

/-- `fetch_workouts_for_streak` (main.py lines 94-126): run the pagination
loop from page 0 with an empty accumulator.  `today` is the value the source
reads via `datetime.utcnow().date()`, hoisted to a parameter. -/
def fetch_workouts_for_streak (today : Int) (pages : List PageResult) : Except FetchErr (List Workout) :=
  fetchLoop today pages [] 0

instance {ε α : Type} [DecidableEq ε] [DecidableEq α] : DecidableEq (Except ε α) := fun x y =>
  match x, y with
  | Except.ok a, Except.ok b =>
    if h : a = b then isTrue (by rw [h]) else isFalse (by intro hh; cases hh; exact h rfl)
  | Except.error a, Except.error b =>
    if h : a = b then isTrue (by rw [h]) else isFalse (by intro hh; cases hh; exact h rfl)
  | Except.ok _, Except.error _ => isFalse (by intro hh; cases hh)
  | Except.error _, Except.ok _ => isFalse (by intro hh; cases hh)

/-- The records carried by a page response (none for an error response). -/
def pageData : PageResult → List Workout
  | PageResult.err => []
  | PageResult.ok data => data

/-- The records accumulated after consuming the first `k` pages. -/
def accumRecords (pages : List PageResult) (k : Nat) : List Workout :=
  ((pages.take k).map pageData).flatten

/-- The dates of the records with an integer `start_time`, in list order:
the value `collectDates` returns when no record carries a non-numeric
`start_time`. -/
def intDates : List Workout → List Int
  | [] => []
  | w :: ws =>
    match w.start_time with
    | some (PyVal.vint n) => tsToDate n :: intDates ws
    | _ => intDates ws

/-- The gap condition of main.py lines 120-122, stated as the spec phrases
it: some index `i` into the sorted distinct calendar dates of the given
records (descending) satisfies `date[i] ≠ today - i` days. -/
def gapAt (today : Int) (ws : List Workout) : Prop :=
  ∃ i, i < (sortDesc (intDates ws)).length ∧
    (sortDesc (intDates ws)).getD i 0 ≠ today - (i : Int)

/-- `generate_streak_bar` (main.py lines 183-187): one `●` per week up to
`max_units`, else `max_units` markers and a `" +overflow"` suffix. -/
def generate_streak_bar (weeks : Nat) (max_units : Nat := 20) : String :=
  if weeks ≤ max_units then String.mk (List.replicate weeks '●')
  else String.mk (List.replicate max_units '●') ++ " +" ++ toString (weeks - max_units)

example : generate_streak_bar 5 = "●●●●●" := by decide
example : generate_streak_bar 25 = "●●●●●●●●●●●●●●●●●●●● +5" := by decide
example : generate_streak_bar 0 = "" := by decide

example : sortDesc [3, 7, 3, 5] = [7, 5, 3] := by decide
example : hasGap 10 0 [10, 9, 8] = false := by decide
example : hasGap 10 0 [10, 8] = true := by decide

-- Fetcher sanity: page 0 covers `today`, page 1 introduces a day gap, so the
-- fetch stops after page 1 with both pages' records.
example :
    fetch_workouts_for_streak 100
      [PageResult.ok [⟨some (PyVal.vint (100 * 86400))⟩],
       PageResult.ok [⟨some (PyVal.vint (98 * 86400))⟩],
       PageResult.ok [⟨some (PyVal.vint (97 * 86400))⟩]]
      = Except.ok [⟨some (PyVal.vint (100 * 86400))⟩, ⟨some (PyVal.vint (98 * 86400))⟩] := by
  decide

example :
    fetch_workouts_for_streak 100 [PageResult.err] = Except.error (FetchErr.httpError 0) := by
  decide

example :
    fetch_workouts_for_streak 0 [PageResult.ok [⟨some (PyVal.vstr "x")⟩]]
      = Except.error FetchErr.typeError := by decide

example : calculate_weekly_streak [] 0 = 0 := by decide

/-! ### The backward walk: order-theoretic facts and the loop invariant -/

/-- Lexicographic order on (ISO year, week) pairs; the backward walk strictly
descends in this order, which bounds the loop. -/
def wle : Int × Int → Int × Int → Prop
  | (a1, a2), (b1, b2) => a1 < b1 ∨ (a1 = b1 ∧ a2 ≤ b2)

instance wleDecidable (q : Int × Int) : DecidablePred (fun p => wle p q) := fun p =>
  match p, q with
  | (a1, a2), (b1, b2) => inferInstanceAs (Decidable (a1 < b1 ∨ (a1 = b1 ∧ a2 ≤ b2)))

lemma wle_refl (p : Int × Int) : wle p p := by
  obtain ⟨a1, a2⟩ := p
  show a1 < a1 ∨ (a1 = a1 ∧ a2 ≤ a2)
  omega

lemma wle_trans {a b c : Int × Int} (h1 : wle a b) (h2 : wle b c) : wle a c := by
  obtain ⟨a1, a2⟩ := a; obtain ⟨b1, b2⟩ := b; obtain ⟨c1, c2⟩ := c
  have g1 : a1 < b1 ∨ (a1 = b1 ∧ a2 ≤ b2) := h1
  have g2 : b1 < c1 ∨ (b1 = c1 ∧ b2 ≤ c2) := h2
  show a1 < c1 ∨ (a1 = c1 ∧ a2 ≤ c2)
  omega

lemma wle_antisymm {a b : Int × Int} (h1 : wle a b) (h2 : wle b a) : a = b := by
  obtain ⟨a1, a2⟩ := a; obtain ⟨b1, b2⟩ := b
  have g1 : a1 < b1 ∨ (a1 = b1 ∧ a2 ≤ b2) := h1
  have g2 : b1 < a1 ∨ (b1 = a1 ∧ b2 ≤ a2) := h2
  simp only [Prod.mk.injEq]
  omega

lemma stepWeek_eq_of_one {y w : Int} (h : w = 1) : stepWeek (y, w) = (y - 1, 52) := by
  simp [stepWeek, h]

lemma stepWeek_eq_of_ne {y w : Int} (h : ¬ w = 1) : stepWeek (y, w) = (y, w - 1) := by
  simp [stepWeek, h]

lemma wle_stepWeek (p : Int × Int) : wle (stepWeek p) p := by
  obtain ⟨y, w⟩ := p
  by_cases hw : w = 1
  · subst hw
    rw [stepWeek_eq_of_one rfl]
    show y - 1 < y ∨ (y - 1 = y ∧ (52 : Int) ≤ 1)
    omega
  · rw [stepWeek_eq_of_ne hw]
    show y < y ∨ (y = y ∧ w - 1 ≤ w)
    omega

lemma stepWeek_ne (p : Int × Int) : stepWeek p ≠ p := by
  obtain ⟨y, w⟩ := p
  by_cases hw : w = 1
  · subst hw; rw [stepWeek_eq_of_one rfl]; simp only [ne_eq, Prod.mk.injEq, not_and]; omega
  · rw [stepWeek_eq_of_ne hw]; simp only [ne_eq, Prod.mk.injEq, not_and]; omega

lemma not_wle_self_step (p : Int × Int) : ¬ wle p (stepWeek p) := by
  obtain ⟨y, w⟩ := p
  by_cases hw : w = 1
  · subst hw
    rw [stepWeek_eq_of_one rfl]
    intro hcon
    have g : y < y - 1 ∨ (y = y - 1 ∧ (1 : Int) ≤ 52) := hcon
    omega
  · rw [stepWeek_eq_of_ne hw]
    intro hcon
    have g : y < y ∨ (y = y ∧ w ≤ w - 1) := hcon
    omega

lemma filterCard_step_lt {S : Finset (Int × Int)} {p : Int × Int} (hp : p ∈ S) :
    (S.filter (fun q => wle q (stepWeek p))).card < (S.filter (fun q => wle q p)).card := by
  have hsub : S.filter (fun q => wle q (stepWeek p)) ⊆ (S.filter (fun q => wle q p)).erase p := by
    intro q hq
    rw [Finset.mem_filter] at hq
    rw [Finset.mem_erase, Finset.mem_filter]
    refine ⟨?_, hq.1, wle_trans hq.2 (wle_stepWeek p)⟩
    rintro rfl
    exact not_wle_self_step _ hq.2
  have hmem : p ∈ S.filter (fun q => wle q p) := Finset.mem_filter.mpr ⟨hp, wle_refl p⟩
  calc (S.filter (fun q => wle q (stepWeek p))).card
      ≤ ((S.filter (fun q => wle q p)).erase p).card := Finset.card_le_card hsub
    _ < (S.filter (fun q => wle q p)).card := Finset.card_erase_lt_of_mem hmem

/-- Loop invariant of the backward walk: provided the fuel exceeds the number
of set elements lexicographically below the start, `walkAux` returns the
first index `r` along the backward-stepped trajectory whose pair is not in
the set, with every earlier pair in the set. -/
lemma walkAux_spec : ∀ (fuel : Nat) (S : Finset (Int × Int)) (p : Int × Int),
    (S.filter (fun q => wle q p)).card < fuel →
    (∀ n < walkAux fuel S p, stepWeek^[n] p ∈ S) ∧
      stepWeek^[walkAux fuel S p] p ∉ S
  | 0, _, _, h => absurd h (Nat.not_lt_zero _)
  | fuel + 1, S, p, h => by
    by_cases hmem : p ∈ S
    · have hlt := filterCard_step_lt hmem
      have ih := walkAux_spec fuel S (stepWeek p) (by omega)
      simp only [walkAux, if_pos hmem]
      constructor
      · intro n hn
        match n with
        | 0 => simpa using hmem
        | Nat.succ m =>
          rw [Function.iterate_succ_apply]
          exact ih.1 m (by omega)
      · rw [show 1 + walkAux fuel S (stepWeek p) = walkAux fuel S (stepWeek p) + 1 by omega,
          Function.iterate_succ_apply]
        exact ih.2
    · simp only [walkAux, if_neg hmem]
      exact ⟨fun n hn => absurd hn (Nat.not_lt_zero n), by simpa using hmem⟩

/-- The escape index characterised by `walkAux_spec` is unique. -/
lemma escape_unique {S : Finset (Int × Int)} {p0 : Int × Int} {a b : Nat}
    (ha1 : ∀ n < a, stepWeek^[n] p0 ∈ S) (ha2 : stepWeek^[a] p0 ∉ S)
    (hb1 : ∀ n < b, stepWeek^[n] p0 ∈ S) (hb2 : stepWeek^[b] p0 ∉ S) : a = b := by
  rcases lt_trichotomy a b with h | h | h
  · exact absurd (hb1 a h) ha2
  · exact h
  · exact absurd (ha1 b h) hb2

/-- Membership in the `weeks_with_workouts` set: exactly the ISO pairs of
records with an integer `start_time`. -/
lemma mem_activeWeeks {p : Int × Int} {ws : List Workout} :
    p ∈ activeWeeks ws ↔ ∃ w ∈ ws, woWeek w = some p := by
  induction ws with
  | nil => simp [activeWeeks]
  | cons w ws ih =>
    unfold activeWeeks at ih ⊢
    simp only [List.foldr_cons]
    cases hw : woWeek w with
    | none =>
      rw [ih]
      constructor
      · rintro ⟨u, hu, huw⟩
        exact ⟨u, List.mem_cons_of_mem _ hu, huw⟩
      · rintro ⟨u, hu, huw⟩
        rcases List.mem_cons.mp hu with rfl | hu
        · rw [hw] at huw; cases huw
        · exact ⟨u, hu, huw⟩
    | some q =>
      rw [Finset.mem_insert, ih]
      constructor
      · rintro (rfl | ⟨u, hu, huw⟩)
        · exact ⟨w, List.mem_cons_self _ _, hw⟩
        · exact ⟨u, List.mem_cons_of_mem _ hu, huw⟩
      · rintro ⟨u, hu, huw⟩
        rcases List.mem_cons.mp hu with rfl | hu
        · rw [hw] at huw
          exact Or.inl (Option.some_injective _ huw).symm
        · exact Or.inr ⟨u, hu, huw⟩

/-- The central characterisation of `calculate_weekly_streak`: the returned
streak is the first index along the backward week trajectory from `today`'s
ISO week whose pair has no workout; every earlier pair has one. -/
theorem calc_walk_spec (ws : List Workout) (today : Int) :
    (∀ n < calculate_weekly_streak ws today,
      stepWeek^[n] (isoWeekPair today) ∈ activeWeeks ws) ∧
    stepWeek^[calculate_weekly_streak ws today] (isoWeekPair today) ∉ activeWeeks ws := by
  by_cases hS : activeWeeks ws = ∅
  · unfold calculate_weekly_streak
    rw [if_pos hS]
    exact ⟨fun n hn => absurd hn (Nat.not_lt_zero n), by simp [hS]⟩
  · unfold calculate_weekly_streak
    rw [if_neg hS]
    exact walkAux_spec ((activeWeeks ws).card + 1) (activeWeeks ws) (isoWeekPair today)
      (by have := Finset.card_filter_le (activeWeeks ws) (fun q => wle q (isoWeekPair today)); omega)

/-- Successive pairs of the backward trajectory strictly descend, hence are
pairwise distinct. -/
lemma iterate_stepWeek_strict (p0 : Int × Int) (n : Nat) :
    ∀ k : Nat, 0 < k →
      wle (stepWeek^[n + k] p0) (stepWeek^[n] p0) ∧ stepWeek^[n + k] p0 ≠ stepWeek^[n] p0 := by
  intro k hk
  induction k with
  | zero => omega
  | succ m ih =>
    by_cases hm : m = 0
    · subst hm
      rw [Function.iterate_succ_apply']
      exact ⟨wle_stepWeek _, stepWeek_ne _⟩
    · have h1 := ih (by omega)
      have h2 : stepWeek^[n + (m + 1)] p0 = stepWeek (stepWeek^[n + m] p0) := by
        rw [show n + (m + 1) = (n + m) + 1 by omega, Function.iterate_succ_apply']
      constructor
      · rw [h2]; exact wle_trans (wle_stepWeek _) h1.1
      · rw [h2]
        intro heq
        have hq1 : wle (stepWeek (stepWeek^[n + m] p0)) (stepWeek^[n + m] p0) := wle_stepWeek _
        rw [heq] at hq1
        exact h1.2 (wle_antisymm h1.1 hq1)

lemma iterate_stepWeek_ne (p0 : Int × Int) {i j : Nat} (hij : i < j) :
    stepWeek^[j] p0 ≠ stepWeek^[i] p0 := by
  have h := (iterate_stepWeek_strict p0 i (j - i) (by omega)).2
  rwa [show i + (j - i) = j by omega] at h

/-! ### The paginated fetcher: loop invariant -/

lemma collectDates_eq_ok : ∀ (ws : List Workout),
    (∀ w ∈ ws, ∀ s, w.start_time ≠ some (PyVal.vstr s)) →
    collectDates ws = Except.ok (intDates ws)
  | [], _ => rfl
  | ⟨none⟩ :: ws, h => by
    show collectDates ws = Except.ok (intDates ws)
    exact collectDates_eq_ok ws (fun u hu s => h u (List.mem_cons_of_mem _ hu) s)
  | ⟨some (PyVal.vint n)⟩ :: ws, h => by
    show (collectDates ws).map (fun ds => tsToDate n :: ds)
      = Except.ok (tsToDate n :: intDates ws)
    rw [collectDates_eq_ok ws (fun u hu s => h u (List.mem_cons_of_mem _ hu) s)]
    rfl
  | ⟨some (PyVal.vstr s)⟩ :: _, h => absurd rfl (h _ (List.mem_cons_self _ _) s)

/-- The early-return scan over the sorted dates reports a gap exactly when
some index `j` holds a date different from `today - (i + j)` days. -/
lemma hasGap_eq_true_iff : ∀ (ds : List Int) (t : Int) (i : Nat),
    hasGap t i ds = true ↔ ∃ j, j < ds.length ∧ ds.getD j 0 ≠ t - ((i + j : Nat) : Int)
  | [], t, i => by simp [hasGap]
  | d :: ds, t, i => by
    have ih := hasGap_eq_true_iff ds t (i + 1)
    by_cases hd : d = t - (i : Int)
    · rw [show hasGap t i (d :: ds) = hasGap t (i + 1) ds from by simp [hasGap, hd]]
      rw [ih]
      constructor
      · rintro ⟨j, hj, hne⟩
        refine ⟨j + 1, by simpa using hj, ?_⟩
        rw [List.getD_cons_succ, show i + (j + 1) = (i + 1) + j from by omega]
        exact hne
      · rintro ⟨j, hj, hne⟩
        cases j with
        | zero =>
          rw [List.getD_cons_zero, show i + 0 = i from by omega] at hne
          exact absurd hd hne
        | succ j =>
          refine ⟨j, by simpa using hj, ?_⟩
          rw [List.getD_cons_succ, show i + (j + 1) = (i + 1) + j from by omega] at hne
          exact hne
    · rw [show hasGap t i (d :: ds) = true from by simp [hasGap, hd]]
      simp only [true_iff]
      exact ⟨0, by simp, by simpa using hd⟩

lemma gapAt_iff_hasGap (t : Int) (ws : List Workout) :
    gapAt t ws ↔ hasGap t 0 (sortDesc (intDates ws)) = true := by
  rw [hasGap_eq_true_iff]
  unfold gapAt
  constructor <;> rintro ⟨j, hj, hne⟩ <;> exact ⟨j, hj, by simpa using hne⟩

lemma accumRecords_zero (pages : List PageResult) : accumRecords pages 0 = [] := rfl

lemma accumRecords_nil (k : Nat) : accumRecords [] k = [] := by
  simp [accumRecords]

lemma accumRecords_cons (pr : PageResult) (ps : List PageResult) (k : Nat) :
    accumRecords (pr :: ps) (k + 1) = pageData pr ++ accumRecords ps k := by
  simp [accumRecords, List.take_succ_cons]

lemma base_accum_cons (acc data : List Workout) (rest : List PageResult) (j : Nat) :
    acc ++ accumRecords (PageResult.ok data :: rest) (j + 1)
      = (acc ++ data) ++ accumRecords rest j := by
  rw [accumRecords_cons]
  show acc ++ (data ++ accumRecords rest j) = (acc ++ data) ++ accumRecords rest j
  rw [List.append_assoc]

/-- The two ways the pagination loop of `fetch_workouts_for_streak` can stop
after consuming `k` pages on top of the accumulator `base`:
either every performed gap check failed to find a gap and the fetch of page
`k` returned no records (or the history was exhausted), or the gap check
fired right after appending page `k - 1`; in both cases every consumed page
was non-empty. -/
def stopConds (today : Int) (pages : List PageResult) (base : List Workout) (k : Nat) : Prop :=
  (∀ j pr, j < k → pages.get? j = some pr → pageData pr ≠ []) ∧
  (((∀ j, 0 < j → j ≤ k → ¬ gapAt today (base ++ accumRecords pages j)) ∧
      ∀ pr, pages.get? k = some pr → pageData pr = [])
    ∨ (0 < k ∧ (∀ j, 0 < j → j < k → ¬ gapAt today (base ++ accumRecords pages j)) ∧
        gapAt today (base ++ accumRecords pages k)))

/-- Loop invariant of the pagination loop: on a server whose pages all carry
well-formed records and no error status, the loop consumes some prefix of
`k` pages, returns the accumulator extended by exactly those pages' records,
and stops for one of the two reasons of `stopConds`. -/
lemma fetchLoop_spec (today : Int) :
    ∀ (rest : List PageResult) (acc : List Workout) (page : Nat),
    (∀ pr ∈ rest, pr ≠ PageResult.err) →
    (∀ pr ∈ rest, ∀ w ∈ pageData pr, ∀ s, w.start_time ≠ some (PyVal.vstr s)) →
    (∀ w ∈ acc, ∀ s, w.start_time ≠ some (PyVal.vstr s)) →
    ∃ k, k ≤ rest.length ∧
      fetchLoop today rest acc page = Except.ok (acc ++ accumRecords rest k) ∧
      stopConds today rest acc k
  | [], acc, page, _, _, _ => by
    refine ⟨0, Nat.le_refl _, by simp [fetchLoop, accumRecords_zero], ?_, Or.inl ⟨?_, ?_⟩⟩
    · intro j pr hj
      exact absurd hj (Nat.not_lt_zero j)
    · intro j hj1 hj2
      omega
    · intro pr hpr
      simp at hpr
  | PageResult.err :: rest, acc, page, hok, _, _ =>
    absurd rfl (hok _ (List.mem_cons_self _ _))
  | PageResult.ok data :: rest, acc, page, hok, hgood, hacc => by
    by_cases hdata : data = []
    · subst hdata
      refine ⟨0, Nat.zero_le _, by simp [fetchLoop, accumRecords_zero], ?_, Or.inl ⟨?_, ?_⟩⟩
      · intro j pr hj
        exact absurd hj (Nat.not_lt_zero j)
      · intro j hj1 hj2
        omega
      · intro pr hpr
        rw [List.get?_cons_zero] at hpr
        cases hpr
        rfl
    · have hacc2 : ∀ w ∈ acc ++ data, ∀ s, w.start_time ≠ some (PyVal.vstr s) :=
        List.forall_mem_append.mpr ⟨hacc, hgood _ (List.mem_cons_self _ _)⟩
      have hcd := collectDates_eq_ok (acc ++ data) hacc2
      have hunfold : fetchLoop today (PageResult.ok data :: rest) acc page
          = if hasGap today 0 (sortDesc (intDates (acc ++ data))) then Except.ok (acc ++ data)
            else fetchLoop today rest (acc ++ data) (page + 1) := by
        simp only [fetchLoop, if_neg hdata, hcd]
      by_cases hgap : hasGap today 0 (sortDesc (intDates (acc ++ data))) = true
      · refine ⟨1, by simp, ?_, ?_, Or.inr ⟨Nat.one_pos, ?_, ?_⟩⟩
        · rw [hunfold, if_pos hgap, base_accum_cons, accumRecords_zero, List.append_nil]
        · intro j pr hj hpr
          interval_cases j
          rw [List.get?_cons_zero] at hpr
          cases hpr
          exact hdata
        · intro j hj1 hj2
          omega
        · rw [base_accum_cons, accumRecords_zero, List.append_nil]
          exact (gapAt_iff_hasGap today (acc ++ data)).mpr hgap
      · have hgap' : hasGap today 0 (sortDesc (intDates (acc ++ data))) = false :=
          Bool.not_eq_true _ ▸ eq_false_of_ne_true hgap
        obtain ⟨k, hklen, hkeq, hkstop⟩ :=
          fetchLoop_spec today rest (acc ++ data) (page + 1)
            (fun pr hpr => hok pr (List.mem_cons_of_mem _ hpr))
            (fun pr hpr => hgood pr (List.mem_cons_of_mem _ hpr))
            hacc2
        refine ⟨k + 1, by simpa using hklen, ?_, ?_, ?_⟩
        · rw [hunfold, if_neg hgap, hkeq, base_accum_cons]
        · intro j pr hj hpr
          cases j with
          | zero =>
            rw [List.get?_cons_zero] at hpr
            cases hpr
            exact hdata
          | succ j =>
            rw [List.get?_cons_succ] at hpr
            exact hkstop.1 j pr (by omega) hpr
        · have hnogap1 : ¬ gapAt today (acc ++ accumRecords (PageResult.ok data :: rest) 1) := by
            rw [base_accum_cons, accumRecords_zero, List.append_nil]
            rw [gapAt_iff_hasGap, hgap']
            simp
          rcases hkstop.2 with ⟨hnogaps, hempty⟩ | ⟨hkpos, hnogaps, hgapk⟩
          · left
            refine ⟨?_, ?_⟩
            · intro j hj1 hj2
              cases j with
              | zero => omega
              | succ j =>
                cases Nat.eq_zero_or_pos j with
                | inl hj0 => subst hj0; exact hnogap1
                | inr hjpos =>
                  rw [base_accum_cons]
                  exact hnogaps j hjpos (by omega)
            · intro pr hpr
              rw [List.get?_cons_succ] at hpr
              exact hempty pr hpr
          · right
            refine ⟨Nat.succ_pos _, ?_, ?_⟩
            · intro j hj1 hj2
              cases j with
              | zero => omega
              | succ j =>
                cases Nat.eq_zero_or_pos j with
                | inl hj0 => subst hj0; exact hnogap1
                | inr hjpos =>
                  rw [base_accum_cons]
                  exact hnogaps j hjpos (by omega)
            · rw [base_accum_cons]
              exact hgapk

/-! ### Claims -/

/-- C1: the paginated fetcher loops over successive pages starting at index
0, appending each page's records to the accumulated list, and returns
exactly when a fetched page is empty (all accumulated records are returned)
or when, after appending a page, some index `i` into the sorted distinct
calendar dates of all accumulated workouts (descending) satisfies
`date[i] ≠ today - i` days, in which case the accumulated records are
returned immediately at that point (`stopConds`). -/
theorem fetch_pagination_spec (today : Int) (pages : List PageResult)
    (hok : ∀ pr ∈ pages, pr ≠ PageResult.err)
    (hgood : ∀ pr ∈ pages, ∀ w ∈ pageData pr, ∀ s, w.start_time ≠ some (PyVal.vstr s)) :
    ∃ k, k ≤ pages.length ∧
      fetch_workouts_for_streak today pages = Except.ok (accumRecords pages k) ∧
      stopConds today pages [] k := by
  obtain ⟨k, hk1, hk2, hk3⟩ :=
    fetchLoop_spec today pages [] 0 hok hgood (by intro w hw; simp at hw)
  refine ⟨k, hk1, ?_, hk3⟩
  show fetchLoop today pages [] 0 = _
  rw [hk2, List.nil_append]

/-- Witness for C1: a server with three one-record pages where page 1's
record introduces a day gap, so the fetch stops after two pages. -/
theorem fetch_pagination_spec_witness :
    ∃ k, k ≤ ([PageResult.ok [⟨some (PyVal.vint (100 * 86400))⟩],
        PageResult.ok [⟨some (PyVal.vint (98 * 86400))⟩],
        PageResult.ok [⟨some (PyVal.vint (97 * 86400))⟩]] : List PageResult).length ∧
      fetch_workouts_for_streak 100
        [PageResult.ok [⟨some (PyVal.vint (100 * 86400))⟩],
         PageResult.ok [⟨some (PyVal.vint (98 * 86400))⟩],
         PageResult.ok [⟨some (PyVal.vint (97 * 86400))⟩]]
        = Except.ok (accumRecords
            [PageResult.ok [⟨some (PyVal.vint (100 * 86400))⟩],
             PageResult.ok [⟨some (PyVal.vint (98 * 86400))⟩],
             PageResult.ok [⟨some (PyVal.vint (97 * 86400))⟩]] k) ∧
      stopConds 100
        [PageResult.ok [⟨some (PyVal.vint (100 * 86400))⟩],
         PageResult.ok [⟨some (PyVal.vint (98 * 86400))⟩],
         PageResult.ok [⟨some (PyVal.vint (97 * 86400))⟩]] [] k :=
  fetch_pagination_spec 100 _ (by decide)
    (by intro pr hpr w hw s; fin_cases hpr <;> simp_all [pageData])

/-- C2: the backward walk of the streak calculator counts, starting from
`today`'s ISO week, how many consecutive backward-stepped pairs lie in the
active-weeks set, stepping `(y, 1) ↦ (y - 1, 52)` and `(y, w) ↦ (y, w - 1)`
otherwise, and stops at the first pair not in the set. -/
theorem weekly_streak_backward_walk (workouts : List Workout) (today : Int) :
    (∀ n, n < calculate_weekly_streak workouts today →
      (fun q : Int × Int => if q.2 = 1 then (q.1 - 1, 52) else (q.1, q.2 - 1))^[n]
        (isoWeekPair today) ∈ activeWeeks workouts) ∧
    (fun q : Int × Int => if q.2 = 1 then (q.1 - 1, 52) else (q.1, q.2 - 1))^[calculate_weekly_streak workouts today]
      (isoWeekPair today) ∉ activeWeeks workouts := by
  have hl : (fun q : Int × Int => if q.2 = 1 then (q.1 - 1, 52) else (q.1, q.2 - 1)) = stepWeek := rfl
  rw [hl]
  exact calc_walk_spec workouts today

/-- Witness for C2 at a single workout in the current week. -/
theorem weekly_streak_backward_walk_witness :
    (fun q : Int × Int => if q.2 = 1 then (q.1 - 1, 52) else (q.1, q.2 - 1))^[0]
      (isoWeekPair 0) ∈ activeWeeks [⟨some (PyVal.vint 0)⟩] ∧
    (fun q : Int × Int => if q.2 = 1 then (q.1 - 1, 52) else (q.1, q.2 - 1))^[calculate_weekly_streak [⟨some (PyVal.vint 0)⟩] 0]
      (isoWeekPair 0) ∉ activeWeeks [⟨some (PyVal.vint 0)⟩] :=
  ⟨(weekly_streak_backward_walk [⟨some (PyVal.vint 0)⟩] 0).1 0 (by decide),
   (weekly_streak_backward_walk [⟨some (PyVal.vint 0)⟩] 0).2⟩

/-- C3 (code bug): the source's `calculate_weekly_streak` takes only the
workout list and reads `datetime.utcnow()` internally; in this embedding
that clock read is hoisted to the `today` parameter, and the result
genuinely depends on it — the same records give streak 1 on day 0 and
streak 0 on day 100 — so the implicit clock read is semantically
significant, contradicting the spec's requirement of an explicit
reference-date parameter. -/
theorem weekly_streak_depends_on_reference_date :
    calculate_weekly_streak [⟨some (PyVal.vint 0)⟩] 0 = 1 ∧
    calculate_weekly_streak [⟨some (PyVal.vint 0)⟩] 100 = 0 := by decide

/-- C5: a non-success page response aborts the whole fetch with an error
identifying the current page index, whatever records are accumulated; in
particular a failure on the very first fetch is reported as page 0 with no
records returned, and after one successful gap-free page a failing second
fetch is reported as page 1. -/
theorem fetch_error_aborts_with_page_index :
    (∀ (today : Int) (rest : List PageResult) (acc : List Workout) (page : Nat),
      fetchLoop today (PageResult.err :: rest) acc page
        = Except.error (FetchErr.httpError page)) ∧
    (∀ (today : Int) (rest : List PageResult),
      fetch_workouts_for_streak today (PageResult.err :: rest)
        = Except.error (FetchErr.httpError 0)) ∧
    fetch_workouts_for_streak 0 [PageResult.ok [⟨some (PyVal.vint 0)⟩], PageResult.err]
      = Except.error (FetchErr.httpError 1) :=
  ⟨fun _ _ _ _ => rfl, fun _ _ => rfl, by decide⟩

/-- C6: the renderer emits one `●` per week when the streak fits in
`max_units`, else `max_units` markers and a `" +overflow"` suffix; streak 5
at the default maximum 20 renders as five markers, streak 25 as twenty
markers plus `" +5"`. -/
theorem streak_bar_rendering :
    (∀ weeks max_units : Nat,
      (weeks ≤ max_units →
        (generate_streak_bar weeks max_units).data = List.replicate weeks '●') ∧
      (max_units < weeks →
        (generate_streak_bar weeks max_units).data
          = List.replicate max_units '●' ++ (" +" ++ toString (weeks - max_units)).data)) ∧
    generate_streak_bar 5 = "●●●●●" ∧
    generate_streak_bar 25 = "●●●●●●●●●●●●●●●●●●●● +5" := by
  refine ⟨fun weeks max_units => ⟨?_, ?_⟩, by decide, by decide⟩
  · intro h
    unfold generate_streak_bar
    rw [if_pos h]
  · intro h
    unfold generate_streak_bar
    rw [if_neg (by omega)]
    simp [String.data_append]

/-- Witness for C6 at the spec's two worked examples. -/
theorem streak_bar_rendering_witness :
    (generate_streak_bar 5 20).data = List.replicate 5 '●' ∧
    (generate_streak_bar 25 20).data
      = List.replicate 20 '●' ++ (" +" ++ toString (25 - 20 : Nat)).data :=
  ⟨(streak_bar_rendering.1 5 20).1 (by decide),
   (streak_bar_rendering.1 25 20).2 (by decide)⟩

/-- C4 (counterexample to the claim as stated): a record whose `start_time`
is present but not a number is *not* skipped by the fetcher's gap check —
its date conversion raises, so its presence flips the fetch from success to
failure. -/
theorem malformed_start_time_counterexample :
    fetch_workouts_for_streak 0 [PageResult.ok [⟨some (PyVal.vint 0)⟩]]
      = Except.ok [⟨some (PyVal.vint 0)⟩] ∧
    fetch_workouts_for_streak 0
        [PageResult.ok [⟨some (PyVal.vint 0)⟩, ⟨some (PyVal.vstr "x")⟩]]
      = Except.error FetchErr.typeError := by decide

/-- C4 (amended): the streak calculator skips records whose `start_time` is
missing or not an integer, without error and without effect on the
active-weeks set; the fetcher's gap check skips records lacking the
`start_time` key, but a present non-numeric `start_time` makes its date
collection raise. -/
theorem malformed_start_time_handling :
    (∀ (w : Workout) (ws : List Workout) (today : Int),
      (∀ n : Int, w.start_time ≠ some (PyVal.vint n)) →
      activeWeeks (w :: ws) = activeWeeks ws ∧
      calculate_weekly_streak (w :: ws) today = calculate_weekly_streak ws today) ∧
    (∀ (w : Workout) (ws : List Workout), w.start_time = none →
      collectDates (w :: ws) = collectDates ws) ∧
    (∀ (w : Workout) (ws : List Workout) (s : String),
      w.start_time = some (PyVal.vstr s) → collectDates (w :: ws) = Except.error ()) := by
  refine ⟨?_, ?_, ?_⟩
  · intro w ws today hw
    have hwo : woWeek w = none := by
      unfold woWeek
      cases hst : w.start_time with
      | none => rfl
      | some v =>
        cases v with
        | vint n => exact absurd hst (hw n)
        | vstr s => rfl
    have hS : activeWeeks (w :: ws) = activeWeeks ws := by
      unfold activeWeeks
      simp only [List.foldr_cons]
      rw [hwo]
    refine ⟨hS, ?_⟩
    unfold calculate_weekly_streak
    rw [hS]
  · intro w ws h
    obtain ⟨st⟩ := w
    cases h
    rfl
  · intro w ws s h
    obtain ⟨st⟩ := w
    cases h
    rfl

/-- Witness for C4 (amended) at concrete malformed records. -/
theorem malformed_start_time_handling_witness :
    calculate_weekly_streak [⟨some (PyVal.vstr "x")⟩, ⟨some (PyVal.vint 0)⟩] 0
      = calculate_weekly_streak [⟨some (PyVal.vint 0)⟩] 0 ∧
    collectDates [⟨none⟩, ⟨some (PyVal.vint 0)⟩] = collectDates [⟨some (PyVal.vint 0)⟩] ∧
    collectDates [⟨some (PyVal.vstr "x")⟩, ⟨some (PyVal.vint 0)⟩] = Except.error () :=
  ⟨(malformed_start_time_handling.1 ⟨some (PyVal.vstr "x")⟩ [⟨some (PyVal.vint 0)⟩] 0
      (by intro n h; simp at h)).2,
   malformed_start_time_handling.2.1 ⟨none⟩ [⟨some (PyVal.vint 0)⟩] rfl,
   malformed_start_time_handling.2.2 ⟨some (PyVal.vstr "x")⟩ [⟨some (PyVal.vint 0)⟩] "x" rfl⟩

/-- C7: when no record yields a valid ISO week pair — in particular on the
empty collection — the streak is 0 and no error is signalled (the function
is total). -/
theorem empty_active_weeks_zero_streak (workouts : List Workout) (today : Int)
    (h : ∀ w ∈ workouts, woWeek w = none) :
    calculate_weekly_streak workouts today = 0 := by
  have hS : activeWeeks workouts = ∅ := by
    rw [Finset.eq_empty_iff_forall_not_mem]
    intro p hp
    obtain ⟨u, hu, huw⟩ := mem_activeWeeks.mp hp
    rw [h u hu] at huw
    cases huw
  unfold calculate_weekly_streak
  rw [if_pos hS]

/-- Witness for C7: a collection with a single keyless record. -/
theorem empty_active_weeks_zero_streak_witness :
    (∀ w ∈ ([⟨none⟩] : List Workout), woWeek w = none) ∧
    calculate_weekly_streak [⟨none⟩] 0 = 0 :=
  ⟨by decide, empty_active_weeks_zero_streak [⟨none⟩] 0 (by decide)⟩

/-- C8: the streak calculator is monotone: a sub-collection of workout
records never yields a larger streak for the same reference date. -/
theorem weekly_streak_monotone (A B : List Workout) (today : Int) (hAB : A ⊆ B) :
    calculate_weekly_streak A today ≤ calculate_weekly_streak B today := by
  have hS : activeWeeks A ⊆ activeWeeks B := by
    intro p hp
    obtain ⟨u, hu, huw⟩ := mem_activeWeeks.mp hp
    exact mem_activeWeeks.mpr ⟨u, hAB hu, huw⟩
  have hA := calc_walk_spec A today
  have hB := calc_walk_spec B today
  by_contra hcon
  push_neg at hcon
  exact hB.2 (hS (hA.1 _ hcon))

/-- Witness for C8 at a one-record sub-collection. -/
theorem weekly_streak_monotone_witness :
    ([⟨some (PyVal.vint 0)⟩] : List Workout) ⊆ [⟨some (PyVal.vint 0)⟩, ⟨some (PyVal.vint 86400)⟩] ∧
    calculate_weekly_streak [⟨some (PyVal.vint 0)⟩] 0
      ≤ calculate_weekly_streak [⟨some (PyVal.vint 0)⟩, ⟨some (PyVal.vint 86400)⟩] 0 :=
  ⟨by decide,
   weekly_streak_monotone [⟨some (PyVal.vint 0)⟩] [⟨some (PyVal.vint 0)⟩, ⟨some (PyVal.vint 86400)⟩] 0
     (by decide)⟩

/-- C9 (counterexample to the claim as stated): the empty collection
vacuously satisfies "every record's ISO week pair equals the current
week's", yet the streak is 0, not 1. -/
theorem all_current_week_counterexample :
    (∀ w ∈ ([] : List Workout), woWeek w = some (isoWeekPair 0)) ∧
    calculate_weekly_streak [] 0 ≠ 1 := by
  constructor
  · intro w hw
    simp at hw
  · decide

/-- C9 (amended): for every *nonempty* workout collection in which every
record's ISO (year, week) pair equals the current week's pair, the streak is
exactly 1. -/
theorem all_current_week_streak_one (workouts : List Workout) (today : Int)
    (hne : workouts ≠ [])
    (hall : ∀ w ∈ workouts, woWeek w = some (isoWeekPair today)) :
    calculate_weekly_streak workouts today = 1 := by
  have hmem : isoWeekPair today ∈ activeWeeks workouts := by
    match workouts, hne with
    | w :: ws, _ =>
      exact mem_activeWeeks.mpr ⟨w, List.mem_cons_self _ _, hall w (List.mem_cons_self _ _)⟩
  have hspec := calc_walk_spec workouts today
  refine escape_unique hspec.1 hspec.2 ?_ ?_
  · intro n hn
    interval_cases n
    simpa using hmem
  · rw [Function.iterate_one]
    intro hcon
    obtain ⟨u, hu, huw⟩ := mem_activeWeeks.mp hcon
    rw [hall u hu] at huw
    exact stepWeek_ne _ (Option.some_injective _ huw).symm

/-- Witness for C9 (amended) at a single workout in the current week. -/
theorem all_current_week_streak_one_witness :
    ([⟨some (PyVal.vint 0)⟩] : List Workout) ≠ [] ∧
    (∀ w ∈ ([⟨some (PyVal.vint 0)⟩] : List Workout), woWeek w = some (isoWeekPair 0)) ∧
    calculate_weekly_streak [⟨some (PyVal.vint 0)⟩] 0 = 1 :=
  ⟨by decide, by decide,
   all_current_week_streak_one [⟨some (PyVal.vint 0)⟩] 0 (by decide) (by decide)⟩

/-- C10: the backward walk visits pairwise-distinct week pairs, so it
terminates and the streak never exceeds the number of distinct ISO week
pairs derived from the records. -/
theorem weekly_streak_bounded_by_card (workouts : List Workout) (today : Int) :
    calculate_weekly_streak workouts today ≤ (activeWeeks workouts).card ∧
    ((List.range (calculate_weekly_streak workouts today)).map
      (fun n => stepWeek^[n] (isoWeekPair today))).Nodup := by
  have hspec := calc_walk_spec workouts today
  constructor
  · have hmapsto : ∀ n ∈ Finset.range (calculate_weekly_streak workouts today),
        stepWeek^[n] (isoWeekPair today) ∈ activeWeeks workouts := by
      intro n hn
      exact hspec.1 n (Finset.mem_range.mp hn)
    have hinj : Set.InjOn (fun n => stepWeek^[n] (isoWeekPair today))
        (Finset.range (calculate_weekly_streak workouts today)) := by
      intro i _ j _ hij
      by_contra hne
      rcases Nat.lt_trichotomy i j with h | h | h
      · exact iterate_stepWeek_ne _ h hij.symm
      · exact hne h
      · exact iterate_stepWeek_ne _ h hij
    have hcard := Finset.card_le_card_of_injOn _ hmapsto hinj
    simpa using hcard
  · refine List.Nodup.map_on ?_ (List.nodup_range _)
    intro i hi j hj hij
    by_contra hne
    rcases Nat.lt_trichotomy i j with h | h | h
    · exact iterate_stepWeek_ne _ h hij.symm
    · exact hne h
    · exact iterate_stepWeek_ne _ h hij
example : calculate_weekly_streak [⟨some (PyVal.vint 0)⟩] 0 = 1 := by decide
example : calculate_weekly_streak [⟨some (PyVal.vint 0)⟩] 100 = 0 := by decide
-- day 20738 = 2026-10-12 (ISO week 42); a workout in that week and one in
-- the prior week give a streak of 2.
example :
    calculate_weekly_streak
      [⟨some (PyVal.vint (20738 * 86400))⟩, ⟨some (PyVal.vint (20731 * 86400))⟩]
      20738 = 2 := by decide
example :
    calculate_weekly_streak
      [⟨some (PyVal.vint (20738 * 86400))⟩, ⟨some (PyVal.vint (20724 * 86400))⟩]
      20738 = 1 := by decide
